import Mathlib

/-!
Verification of the mrusty bridge (`src/mruby.rs`) against its specification.

The embedding below is a shallow model of `src/mruby.rs`:

* The `Mruby` structure mirrors the Rust `Mruby` struct (interpreter handle
  fields that are opaque pointers in Rust — `mrb`, `ctx` — are represented by
  the observable state they carry: the compile context's filename).
* Rust `HashMap`/`HashSet` registries become association lists / lists; a
  `HashMap` insert is modelled by prepending, which has the same `lookup`
  semantics.
* Host closures (`Fn(MrubyType, Value) -> Value`) are defunctionalized into
  `ClosureCode`, interpreted by `runClosure`; a closure may finish normally or
  terminate abnormally with a `Payload` (the Rust panic payload, which is
  either a `&'static str`, a `String`, or something else).
* Reference-counted host objects (`Rc<T>`) live in an explicit `Heap` mapping
  an object pointer to its reference count.
* The file system and the mruby VM proper (external collaborators: `File`,
  `mrb_load_nstring_cxt`, ...) are parameters: `FS` maps paths to contents and
  `VM` maps a script to either a value or the active exception's message.
* Functions that in Rust have observable side effects additionally return a
  trace of `Event`s (which loader callbacks ran, which files were opened and
  read, which host closure was invoked); this instruments the model without
  changing the modelled control flow.
-/

namespace Mrusty

/-- Host type identity (`std::any::TypeId`). -/
abbrev TypeId := Nat

/-- Reference-count heap for host objects: pointer ↦ strong count (`Rc`). -/
abbrev Heap := List (Nat × Nat)

/-- Association-list lookup (models `HashMap::get`). -/
def lookupA {α β : Type} [DecidableEq α] : List (α × β) → α → Option β
  | [], _ => none
  | (k, v) :: rest, key => if k = key then some v else lookupA rest key

/-- Current reference count of pointer `p` (0 when unallocated). -/
def heapGet (h : Heap) (p : Nat) : Nat := (lookupA h p).getD 0

/-- Increment the reference count of `p` (models `Rc::clone`). -/
def heapInc (h : Heap) (p : Nat) : Heap :=
  (p, heapGet h p + 1) :: h.filter (fun q => q.1 != p)

/-- First pointer not yet allocated in the heap (models fresh allocation). -/
def freshPtr (h : Heap) : Nat := (h.map (fun q => q.1)).foldr max 0 + 1

/-- A raw mruby value (`MrValue`). A foreign-data value (`MRB_TT_DATA`)
carries its data-type tag (the `MrDataType` name), the dynamic class name of
the wrapping script object, and the pointer of the attached host object. -/
inductive MrValue : Type
  | nil : MrValue
  | bool (b : Bool) : MrValue
  | fixnum (n : Int) : MrValue
  | str (s : String) : MrValue
  | data (tag : String) (cls : String) (ptr : Nat) : MrValue
deriving DecidableEq, Repr

/-- The `MrubyError` enum of `src/mruby.rs`. -/
inductive MrubyError : Type
  | Cast (expected : String) : MrubyError
  | Undef : MrubyError
  | Runtime (msg : String) : MrubyError
  | Filetype : MrubyError
  | Io (msg : String) : MrubyError
deriving DecidableEq, Repr

/-- The `Display` implementation for `MrubyError` (`impl fmt::Display`). -/
def MrubyError.display : MrubyError → String
  | .Cast expected => "Cast error: expected " ++ expected
  | .Undef => "Undefined error: type is not defined"
  | .Runtime msg => "Runtime error: " ++ msg
  | .Filetype => "Filetype error: script needs a compatible (.rb, .mrb) extension"
  | .Io msg => msg

/-- A Rust panic payload as seen by the downcasts in `call_method`:
a `&'static str`, a `String`, or any other payload. -/
inductive Payload : Type
  | staticStr (s : String) : Payload
  | dynString (s : String) : Payload
  | other : Payload
deriving DecidableEq, Repr

/-- Outcome of invoking a host closure: a normal return or a panic. -/
inductive ClosureRes : Type
  | ok (v : MrValue) : ClosureRes
  | panicked (p : Payload) : ClosureRes
deriving DecidableEq, Repr

/-- Defunctionalized host closures (`Fn(MrubyType, Value) -> Value`).
`dup` is the closure installed by `def_class` (`|_mruby, slf| slf.clone()`);
`constV` returns a fixed value; the `panic`-constructors are closures that
terminate abnormally with the corresponding payload. -/
inductive ClosureCode : Type
  | dup : ClosureCode
  | constV (v : MrValue) : ClosureCode
  | panicStatic (s : String) : ClosureCode
  | panicString (s : String) : ClosureCode
  | panicOther : ClosureCode
deriving DecidableEq, Repr

/-- `Value::clone` (`impl Clone for Value`, lines 1523-1538): for a
foreign-data value the source transmutes the stored pointer to an `Rc` and
calls `rc.clone()` — but that call's result is an unbound temporary, dropped
at the end of the statement, which undoes the increment the clone made; the
following `mem::forget(rc)` only neutralizes the transmuted original. The
net effect of `Value::clone` on the reference count is therefore zero, and
the raw value (with its foreign pointer) is copied unchanged. -/
def cloneValue (h : Heap) (v : MrValue) : Heap × MrValue :=
  match v with
  | .data tag cls ptr => (h, .data tag cls ptr)
  | v => (h, v)

/-- Interpreter for `ClosureCode` on the receiver value and the heap. -/
def runClosure : ClosureCode → Heap → MrValue → Heap × ClosureRes
  | .dup, h, v => let hv := cloneValue h v; (hv.1, .ok hv.2)
  | .constV v, h, _ => (h, .ok v)
  | .panicStatic s, h, _ => (h, .panicked (.staticStr s))
  | .panicString s, h, _ => (h, .panicked (.dynString s))
  | .panicOther, h, _ => (h, .panicked .other)

/-- A class registration entry: the `MrDataType` name and the display name
(`def_class` uses the same string for both; the script-side class handle is
opaque and carries no observable state). -/
structure ClassEntry : Type where
  dataTypeName : String
  name : String
deriving DecidableEq, Repr

/-- Loader callbacks (`fn(MrubyType)`) registered via `def_file`,
defunctionalized: a loader typically registers a class, or does nothing. -/
inductive LoaderCode : Type
  | defClassL (T : TypeId) (name : String) : LoaderCode
  | noop : LoaderCode
deriving DecidableEq, Repr

/-- Observable side effects, used to instrument the model: which loader
callbacks ran, which files were opened / read, which closure was invoked. -/
inductive Event : Type
  | openFile (path : String) : Event
  | readFile (path : String) : Event
  | ranLoader (name : String) : Event
  | invoked (sym : String) : Event
deriving DecidableEq, Repr

/-- The `Mruby` struct. `filename` is the Rust field of the same name;
`ctxFilename` is the filename recorded in the mruby compile context by
`mrbc_filename` (the `ctx` pointer's observable state); `exc` is the
interpreter's active exception as a (class, message) pair; `heap` holds the
reference counts of host objects. Method symbols are modelled by the interned
string itself (`mrb_intern` is injective per interpreter). -/
structure Mruby : Type where
  filename : Option String
  ctxFilename : Option String
  classes : List (TypeId × ClassEntry)
  methods : List (TypeId × List (String × ClosureCode))
  class_methods : List (TypeId × List (String × ClosureCode))
  files : List (String × List LoaderCode)
  required : List String
  exc : Option (String × String)
  heap : Heap
deriving DecidableEq, Repr

/-- The state produced by `Mruby::new()`: empty registries, no filename, no
active exception. (The `RustPanic` class definition and the installation of
the `require` primitive act only on VM-internal state.) -/
def Mruby.init : Mruby :=
  { filename := none, ctxFilename := none, classes := [], methods := [],
    class_methods := [], files := [], required := [], exc := none, heap := [] }

/-- The `filename` method of `MrubyImpl`: sets the `filename` field and the
compile context's filename (`mrbc_filename`). Named `setFilename` because the
field of the same name already occupies `Mruby.filename`. -/
def setFilename (st : Mruby) (f : String) : Mruby :=
  { st with filename := some f, ctxFilename := some f }

/-- The `raise` method of `MrubyImpl`: `mrb_ext_raise` records the exception
(class, message) as the interpreter's active exception, and the method
returns `self.nil()`. -/
def raise (st : Mruby) (eclass : String) (message : String) : Mruby × MrValue :=
  ({ st with exc := some (eclass, message) }, .nil)

/-- `def_method` (`MrubyImpl::def_method`): interns `name`, inserts the
closure into the method table of `T` (the Rust code panics with
"Class not found." when the table is missing, modelled by `Except.error`),
then looks `T` up in `classes` for `mrb_define_method` (panicking likewise).
`HashMap` insertion is modelled by prepending, which has the same `lookup`
semantics. -/
def def_method (st : Mruby) (T : TypeId) (name : String) (code : ClosureCode) :
    Except String Mruby :=
  match lookupA st.methods T with
  | none => .error "Class not found."
  | some ms =>
      let st := { st with methods := (T, (name, code) :: ms) :: st.methods }
      match lookupA st.classes T with
      | none => .error "Class not found."
      | some _ => .ok st

/-- `def_class` (`MrubyImpl::def_class`): defines the script class, marks it
as a foreign-data carrier with an `MrDataType` named after the class, records
the registration entry, resets the (class) method tables for `T`, and always
installs the automatic `dup` method (`|_mruby, slf| slf.clone()`). The inner
`def_method` cannot fail because the tables for `T` were just inserted. -/
def def_class (st : Mruby) (T : TypeId) (name : String) : Mruby :=
  let entry : ClassEntry := { dataTypeName := name, name := name }
  let st := { st with classes := (T, entry) :: st.classes,
                      methods := (T, []) :: st.methods,
                      class_methods := (T, []) :: st.class_methods }
  match def_method st T "dup" ClosureCode.dup with
  | .ok st => st
  | .error _ => st

/-- A registered loader callback (`fn(MrubyType)`), interpreted. -/
def runLoader : LoaderCode → Mruby → Mruby
  | .defClassL T name, st => def_class st T name
  | .noop, st => st

/-- The dispatch trampoline `call_method::<T>` installed by `def_method`
(lines 911-959 of `src/mruby.rs`): look up the method table of `T`
(raising `TypeError` "Class not found." when absent), then the closure under
the symbol the runtime reports for the current call (`mrb_ext_get_mid`;
raising `TypeError` "Method not found." when absent), then invoke the closure
inside `panic::recover`; a normal return propagates the value, a panic is
converted into a `RustPanic` exception whose message is the payload when it
is a `&'static str` or a `String` and "" otherwise. The trace records the
invoked closure's symbol. -/
def call_method (st : Mruby) (T : TypeId) (sym : String) (slf : MrValue) :
    Mruby × MrValue × List Event :=
  match lookupA st.methods T with
  | none =>
      let rv := raise st "TypeError" "Class not found."
      (rv.1, rv.2, [])
  | some ms =>
      match lookupA ms sym with
      | none =>
          let rv := raise st "TypeError" "Method not found."
          (rv.1, rv.2, [])
      | some code =>
          match runClosure code st.heap slf with
          | (h, .ok v) => ({ st with heap := h }, v, [.invoked sym])
          | (h, .panicked p) =>
              let message :=
                match p with
                | .staticStr s => s
                | .dynString s => s
                | .other => ""
              let rv := raise { st with heap := h } "RustPanic" message
              (rv.1, rv.2, [.invoked sym])

/-- Modelled from the spec: the dynamic class name of a value as reported by
the scripting runtime (`Value::type_name` calls `.class.to_s` through the
external VM, which is not under `src/`). A foreign-data value reports the
class it was created under; primitives report their builtin class names. -/
def typeName : MrValue → String
  | .nil => "NilClass"
  | .bool true => "TrueClass"
  | .bool false => "FalseClass"
  | .fixnum _ => "Fixnum"
  | .str _ => "String"
  | .data _ cls _ => cls

/-- Modelled from the spec: `MrValue::to_obj` from the ffi layer (absent from
`src/`, only its tests are present): checks that the value is a foreign-data
value whose data-type tag matches the registration's descriptor, and on
success returns a new shared reference to the host object, incrementing its
reference count; otherwise it is a cast failure. -/
def MrValue.ffiToObj (st : Mruby) (v : MrValue) (dt : String) :
    Mruby × Except MrubyError Nat :=
  match v with
  | .data tag _ ptr =>
      if tag = dt then ({ st with heap := heapInc st.heap ptr }, .ok ptr)
      else (st, .error (.Cast dt))
  | _ => (st, .error (.Cast dt))

/-- `Value::to_obj::<T>` (lines 1438-1457 of `src/mruby.rs`): look up the
registration of `T` (`Undef` when absent), compare the value's dynamic class
name with the recorded display name (`Undef` on mismatch), then delegate to
the ffi-level cast. -/
def Value.to_obj (st : Mruby) (v : MrValue) (T : TypeId) :
    Mruby × Except MrubyError Nat :=
  match lookupA st.classes T with
  | none => (st, .error .Undef)
  | some entry =>
      let class_name := typeName v
      if class_name ≠ entry.name then (st, .error .Undef)
      else MrValue.ffiToObj st v entry.dataTypeName

/-- `obj::<T>` (`MrubyImpl::obj`): panics with "Class not found." (modelled
by `Except.error`) when `T` is not registered; otherwise creates a
foreign-data value of the registered class wrapping a freshly allocated
host object with reference count 1 (`Rc::new` + `MrValue::obj`). -/
def obj (st : Mruby) (T : TypeId) : Except String (Mruby × MrValue) :=
  match lookupA st.classes T with
  | none => .error "Class not found."
  | some entry =>
      let p := freshPtr st.heap
      .ok ({ st with heap := (p, 1) :: st.heap },
           .data entry.dataTypeName entry.name p)

/-- `option::<T>` (`MrubyImpl::option`, lines 1121-1127 of `src/mruby.rs`):
`Some` delegates to `obj`, `None` produces the nil value. -/
def option (st : Mruby) (T : TypeId) (o : Option Unit) :
    Except String (Mruby × MrValue) :=
  match o with
  | some _ => obj st T
  | none => .ok (st, .nil)

/-- The file system, an external collaborator: path ↦ contents. A path is a
file exactly when it is in the map (`Path::is_file`, `File::open`). -/
abbrev FS := List (String × String)

/-- `Path::is_file`. -/
def isFile (fs : FS) (p : String) : Bool := (lookupA fs p).isSome

/-- The io error produced by `File::open` on a missing file, as converted by
`From<io::Error> for MrubyError`; the message is the OS's rendering. -/
def ioErrNotFound : String := "No such file or directory (os error 2)"

/-- Modelled from the spec: the mruby VM proper (`mrb_load_nstring_cxt`,
`mrb_load_irep_cxt`, `mrb_ext_get_exc` — external to `src/`), abstracted as a
function from a script's contents to either a resulting value or the active
exception's message. -/
structure VM : Type where
  runSrc : String → Except String MrValue
  runBytes : String → Except String MrValue

/-- `run` (`MrubyImpl::run`): compile+execute source; when the interpreter is
left with an active exception, return it as a `Runtime` error. -/
def run (vm : VM) (script : String) : Except MrubyError MrValue :=
  match vm.runSrc script with
  | .ok v => .ok v
  | .error msg => .error (.Runtime msg)

/-- `runb` (`MrubyImpl::runb`): execute compiled bytecode; an active
exception becomes a `Runtime` error. -/
def runb (vm : VM) (script : String) : Except MrubyError MrValue :=
  match vm.runBytes script with
  | .ok v => .ok v
  | .error msg => .error (.Runtime msg)

/-- Index of the last occurrence of `c`, if any. -/
def lastIdxOf (c : Char) (cs : List Char) : Option Nat :=
  match cs.reverse.findIdx? (fun x => x = c) with
  | none => none
  | some j => some (cs.length - 1 - j)

/-- `Path::file_name` for the paths this bridge builds: the component after
the last separator. -/
def fileName (p : String) : String :=
  ⟨(p.toList.reverse.takeWhile (fun c => c ≠ '/')).reverse⟩

/-- `Path::extension`: the suffix of the file name after its last dot; none
when the file name has no dot or its only dot is leading. -/
def extension (p : String) : Option String :=
  let cs := (fileName p).toList
  match lastIdxOf '.' cs with
  | none => none
  | some 0 => none
  | some i => some ⟨cs.drop (i + 1)⟩

/-- `execute` (`MrubyImpl::execute`, lines 812-839 of `src/mruby.rs`):
dispatch on the path's extension. With an extension, first record the file
name as the current source name (`self.filename(...)`), then open the file
(an `Io` error when that fails), then: "rb" reads the contents and runs them
via the checked `run`; "mrb" reads them and runs them via `runb`; any other
extension is a `Filetype` error. Without an extension, a `Filetype` error
before touching the file system. -/
def execute (vm : VM) (fs : FS) (st : Mruby) (path : String) :
    Mruby × Except MrubyError MrValue × List Event :=
  match extension path with
  | some ext =>
      let st := setFilename st (fileName path)
      match lookupA fs path with
      | none => (st, .error (.Io ioErrNotFound), [])
      | some contents =>
          if ext = "rb" then
            (st, run vm contents, [.openFile path, .readFile path])
          else if ext = "mrb" then
            (st, runb vm contents, [.openFile path, .readFile path])
          else
            (st, .error .Filetype, [.openFile path])
  | none => (st, .error .Filetype, [])

/-- The `execute` closure inside the `require` primitive (lines 126-145 of
`src/mruby.rs`): mark `name` required, execute the file at `path`, restore
the saved source name (`mruby.filename(&f)` — field and context — when it
was `Some`; only the `filename` field when it was `None`), then surface an
execution failure as a script-level `RuntimeError` carrying the error's
rendering; the call returns true. -/
def reqExecute (vm : VM) (fs : FS) (st : Mruby) (path : String) (name : String)
    (filename : Option String) : Mruby × MrValue × List Event :=
  let st := { st with required := name :: st.required }
  let r := execute vm fs st path
  let st := r.1
  let st :=
    match filename with
    | some f => setFilename st f
    | none => { st with filename := none }
  let st :=
    match r.2.1 with
    | .error err => (raise st "RuntimeError" err.display).1
    | .ok _ => st
  (st, .bool true, r.2.2)

/-- The script-visible `require` primitive (lines 88-172 of `src/mruby.rs`):
an already-required name returns false at once; a name with registered
loaders is marked required and every loader runs in order, returning true;
otherwise the candidates `name.rb`, `name.mrb`, and the bare `name` are tried
in that order, the first existing one being loaded through the `execute`
closure; when none exists, a `RuntimeError` "cannot load name.rb or name.mrb"
is raised. -/
def require (vm : VM) (fs : FS) (st : Mruby) (name : String) :
    Mruby × MrValue × List Event :=
  if st.required.contains name then
    (st, .bool false, [])
  else
    match lookupA st.files name with
    | some reqs =>
        let st := { st with required := name :: st.required }
        let st := reqs.foldl (fun s r => runLoader r s) st
        (st, .bool true, reqs.map (fun _ => .ranLoader name))
    | none =>
        let filename := st.filename
        let rbP := name ++ ".rb"
        let mrbP := name ++ ".mrb"
        if isFile fs rbP then reqExecute vm fs st rbP name filename
        else if isFile fs mrbP then reqExecute vm fs st mrbP name filename
        else if isFile fs name then reqExecute vm fs st name name filename
        else
          let rv := raise st "RuntimeError"
            ("cannot load " ++ name ++ ".rb or " ++ name ++ ".mrb")
          (rv.1, rv.2, [])

/-- A concrete VM for witnesses: every script evaluates to nil. -/
def vm0 : VM := { runSrc := fun _ => .ok .nil, runBytes := fun _ => .ok .nil }


theorem heapGet_heapInc (h : Heap) (p : Nat) :
    heapGet (heapInc h p) p = heapGet h p + 1 := by
  simp [heapGet, heapInc, lookupA]

/-- Claim C1: a host closure that panics during a script-triggered dispatch
has its panic caught at the dispatch boundary and converted into a script
exception of the internal `RustPanic` class whose message is the panic
payload when it is a `&'static str` or a `String` and the empty string
otherwise; the trampoline returns normally (the model is a total function),
so the panic never unwinds across the foreign-call boundary. -/
theorem C1_panic_conversion (st : Mruby) (T : TypeId) (sym : String)
    (slf : MrValue) (ms : List (String × ClosureCode)) (code : ClosureCode)
    (h : Heap) (p : Payload)
    (h1 : lookupA st.methods T = some ms)
    (h2 : lookupA ms sym = some code)
    (h3 : runClosure code st.heap slf = (h, .panicked p)) :
    call_method st T sym slf =
      ({ st with heap := h,
                 exc := some ("RustPanic",
                   match p with
                   | .staticStr s => s
                   | .dynString s => s
                   | .other => "") },
       MrValue.nil, [Event.invoked sym]) := by
  simp only [call_method, h1, h2, h3, raise]
  cases p <;> rfl

theorem C1_witness :
    call_method
      { Mruby.init with methods := [(0, [("boom", ClosureCode.panicStatic "bad")])] }
      0 "boom" MrValue.nil =
    ({ Mruby.init with methods := [(0, [("boom", ClosureCode.panicStatic "bad")])],
                       exc := some ("RustPanic", "bad") },
     MrValue.nil, [Event.invoked "boom"]) :=
  C1_panic_conversion
    { Mruby.init with methods := [(0, [("boom", ClosureCode.panicStatic "bad")])] }
    0 "boom" MrValue.nil [("boom", ClosureCode.panicStatic "bad")]
    (ClosureCode.panicStatic "bad") [] (Payload.staticStr "bad") rfl rfl rfl

/-- Claim C5: the shared per-type trampoline raises a `TypeError` exception
"Class not found." when no method table exists for the receiver's host type,
and "Method not found." when the table lacks the reported symbol; in both
cases no host closure is invoked (empty trace) and the returned raw value is
nil. -/
theorem C5_dispatch_failures (st : Mruby) (T : TypeId) (sym : String)
    (slf : MrValue) :
    (lookupA st.methods T = none →
      call_method st T sym slf =
        ({ st with exc := some ("TypeError", "Class not found.") },
         MrValue.nil, [])) ∧
    (∀ ms, lookupA st.methods T = some ms → lookupA ms sym = none →
      call_method st T sym slf =
        ({ st with exc := some ("TypeError", "Method not found.") },
         MrValue.nil, [])) := by
  constructor
  · intro h1
    simp only [call_method, h1, raise]
  · intro ms h1 h2
    simp only [call_method, h1, h2, raise]

theorem C5_witness :
    call_method Mruby.init 0 "m" MrValue.nil =
      ({ Mruby.init with exc := some ("TypeError", "Class not found.") },
       MrValue.nil, []) ∧
    call_method { Mruby.init with methods := [(0, [])] } 0 "m" MrValue.nil =
      ({ Mruby.init with methods := [(0, [])],
                         exc := some ("TypeError", "Method not found.") },
       MrValue.nil, []) :=
  ⟨(C5_dispatch_failures Mruby.init 0 "m" MrValue.nil).1 rfl,
   (C5_dispatch_failures { Mruby.init with methods := [(0, [])] } 0 "m"
      MrValue.nil).2 [] rfl rfl⟩

end Mrusty
namespace Mrusty

/-- Claim C8: `def_class` always also installs an instance method `dup` whose
closure is `|_mruby, slf| slf.clone()`: after registration the method table
of `T` holds exactly the `dup` closure; on any receiver `dup` returns a
clone of the receiver value — the same wrapping raw value, so on a
foreign-data receiver the copy carries the same foreign pointer (shared
ownership of the underlying host object is preserved: the object is neither
deep-copied nor released, every reference count staying unchanged, since the
`rc.clone()` inside `Value::clone` is an immediately dropped temporary). -/
theorem C8_def_class_dup (st : Mruby) (T : TypeId) (name : String) :
    lookupA (def_class st T name).methods T = some [("dup", ClosureCode.dup)] ∧
    (∀ h v, runClosure ClosureCode.dup h v = (h, .ok v)) ∧
    (∀ h tag cls ptr p,
      heapGet (runClosure ClosureCode.dup h (.data tag cls ptr)).1 p =
        heapGet h p) := by
  refine ⟨?_, ?_, ?_⟩
  · simp [def_class, def_method, lookupA]
  · intro h v
    cases v <;> rfl
  · intro h tag cls ptr p
    rfl

/-- Claim C10: `option::<T>(None)` returns the nil value and never panics,
for every state — registered or not; the registration precondition applies
only to the `Some` branch, which delegates to `obj` and fails with the
"Class not found." panic when `T` is unregistered. -/
theorem C10_option_none_safe (st : Mruby) (T : TypeId) :
    option st T none = .ok (st, MrValue.nil) ∧
    (lookupA st.classes T = none →
      option st T (some ()) = .error "Class not found.") := by
  constructor
  · rfl
  · intro h
    simp only [option, obj, h]

theorem C10_witness :
    option Mruby.init 9 none = .ok (Mruby.init, MrValue.nil) ∧
    option Mruby.init 9 (some ()) = .error "Class not found." :=
  ⟨(C10_option_none_safe Mruby.init 9).1,
   (C10_option_none_safe Mruby.init 9).2 rfl⟩

/-- Claim C4: `Value::to_obj::<T>` fails with the `Undef` error whenever `T`
was never registered, regardless of the value's runtime representation; it
also fails with `Undef` whenever the value's dynamic class name differs from
the display name recorded at registration (even for foreign-data values whose
tag matches); and on a foreign-data value carrying the registered tag and
class name it returns a new shared reference to the host object, incrementing
its reference count. -/
theorem C4_to_obj (st : Mruby) (v : MrValue) (T : TypeId) :
    (lookupA st.classes T = none →
      Value.to_obj st v T = (st, .error .Undef)) ∧
    (∀ entry, lookupA st.classes T = some entry → typeName v ≠ entry.name →
      Value.to_obj st v T = (st, .error .Undef)) ∧
    (∀ entry ptr, lookupA st.classes T = some entry →
      Value.to_obj st (.data entry.dataTypeName entry.name ptr) T =
        ({ st with heap := heapInc st.heap ptr }, .ok ptr) ∧
      heapGet (heapInc st.heap ptr) ptr = heapGet st.heap ptr + 1) := by
  refine ⟨?_, ?_, ?_⟩
  · intro h
    simp only [Value.to_obj, h]
  · intro entry h hne
    simp only [Value.to_obj, h, if_pos hne]
  · intro entry ptr h
    refine ⟨?_, heapGet_heapInc st.heap ptr⟩
    simp [Value.to_obj, h, typeName, MrValue.ffiToObj]

theorem C4_witness :
    Value.to_obj Mruby.init MrValue.nil 3 = (Mruby.init, .error .Undef) ∧
    Value.to_obj (def_class Mruby.init 0 "Container") (MrValue.str "hi") 0 =
      (def_class Mruby.init 0 "Container", .error .Undef) ∧
    Value.to_obj (def_class Mruby.init 0 "Container")
        (MrValue.data "Container" "Container" 5) 0 =
      ({ def_class Mruby.init 0 "Container" with
          heap := heapInc (def_class Mruby.init 0 "Container").heap 5 },
       .ok 5) :=
  ⟨(C4_to_obj Mruby.init MrValue.nil 3).1 rfl,
   (C4_to_obj (def_class Mruby.init 0 "Container") (MrValue.str "hi") 0).2.1
     { dataTypeName := "Container", name := "Container" } rfl (by decide),
   ((C4_to_obj (def_class Mruby.init 0 "Container")
       (MrValue.data "Container" "Container" 5) 0).2.2
     { dataTypeName := "Container", name := "Container" } 5 rfl).1⟩


theorem execute_required (vm : VM) (fs : FS) (st : Mruby) (p : String) :
    (execute vm fs st p).1.required = st.required := by
  unfold execute
  split
  · split
    · simp [setFilename]
    · split
      · simp [setFilename]
      · split <;> simp [setFilename]
  · rfl

theorem execute_ctxFilename (vm : VM) (fs : FS) (st : Mruby) (p : String)
    (e : String) (hext : extension p = some e) :
    (execute vm fs st p).1.ctxFilename = some (fileName p) := by
  simp only [execute, hext]
  split
  · simp [setFilename]
  · split
    · simp [setFilename]
    · split <;> simp [setFilename]

theorem reqExecute_required (vm : VM) (fs : FS) (st : Mruby) (p : String)
    (name : String) (f : Option String) :
    (reqExecute vm fs st p name f).1.required = name :: st.required := by
  simp only [reqExecute]
  cases f <;> cases hr : (execute vm fs { st with required := name :: st.required } p).2.1 <;>
    simp [hr, raise, setFilename, execute_required]

theorem reqExecute_filename (vm : VM) (fs : FS) (st : Mruby) (p : String)
    (name : String) (f : Option String) :
    (reqExecute vm fs st p name f).1.filename = f := by
  simp only [reqExecute]
  cases f <;> cases hr : (execute vm fs { st with required := name :: st.required } p).2.1 <;>
    simp [hr, raise, setFilename]

theorem reqExecute_ctx_some (vm : VM) (fs : FS) (st : Mruby) (p : String)
    (name : String) (f : String) :
    (reqExecute vm fs st p name (some f)).1.ctxFilename = some f := by
  simp only [reqExecute]
  cases hr : (execute vm fs { st with required := name :: st.required } p).2.1 <;>
    simp [hr, raise, setFilename]

theorem reqExecute_ctx_none (vm : VM) (fs : FS) (st : Mruby) (p : String)
    (name : String) (e : String) (hext : extension p = some e) :
    (reqExecute vm fs st p name none).1.ctxFilename = some (fileName p) := by
  simp only [reqExecute]
  cases hr : (execute vm fs { st with required := name :: st.required } p).2.1 <;>
    simp [hr, raise, execute_ctxFilename vm fs _ p e hext]


/-- Claim C2: a second `require` of an already-loaded name returns false
immediately: the state (and so the required-set) is unchanged and the trace is
empty — no loader callback runs and no file is opened or read — for every
file system and even when the name has registered loaders or a same-named
file on disk. -/
theorem C2_require_idempotent (vm : VM) (fs : FS) (st : Mruby) (name : String)
    (h : st.required.contains name = true) :
    require vm fs st name = (st, MrValue.bool false, []) := by
  simp only [require, h, if_pos]

theorem C2_witness :
    require vm0 [("x.rb", "s")] { Mruby.init with required := ["x"] } "x" =
      ({ Mruby.init with required := ["x"] }, MrValue.bool false, []) :=
  C2_require_idempotent vm0 [("x.rb", "s")]
    { Mruby.init with required := ["x"] } "x" rfl

/-- Claim C3, counterexample: with both a file literally named "x" and a file
"x.rb" on disk, `require "x"` opens and reads "x.rb" — not the bare file "x"
that the claim says is attempted first. -/
theorem C3_counterexample :
    (require vm0 [("x", "A"), ("x.rb", "B")] Mruby.init "x").2.2 =
      [Event.openFile "x.rb", Event.readFile "x.rb"] ∧
    [Event.openFile "x.rb", Event.readFile "x.rb"] ≠
      [Event.openFile "x", Event.readFile "x"] := by
  constructor
  · rfl
  · decide

/-- Claim C3 as amended: when `require name` finds the name not yet required
and no registered loaders, it attempts the candidates in the order
`name.rb`, then `name.mrb`, then the bare `name`; the first existing
candidate is marked required and loaded through the `execute` closure (the
execute-path wrapper). -/
theorem C3_require_candidate_order (vm : VM) (fs : FS) (st : Mruby)
    (name : String)
    (h1 : st.required.contains name = false)
    (h2 : lookupA st.files name = none) :
    (isFile fs (name ++ ".rb") = true →
      require vm fs st name = reqExecute vm fs st (name ++ ".rb") name st.filename ∧
      name ∈ (require vm fs st name).1.required) ∧
    (isFile fs (name ++ ".rb") = false → isFile fs (name ++ ".mrb") = true →
      require vm fs st name = reqExecute vm fs st (name ++ ".mrb") name st.filename ∧
      name ∈ (require vm fs st name).1.required) ∧
    (isFile fs (name ++ ".rb") = false → isFile fs (name ++ ".mrb") = false →
      isFile fs name = true →
      require vm fs st name = reqExecute vm fs st name name st.filename ∧
      name ∈ (require vm fs st name).1.required) := by
  refine ⟨?_, ?_, ?_⟩
  · intro hrb
    have he : require vm fs st name =
        reqExecute vm fs st (name ++ ".rb") name st.filename := by
      simp only [require, h1, h2, hrb]
      simp
    exact ⟨he, by rw [he, reqExecute_required]; exact List.mem_cons_self _ _⟩
  · intro hrb hmrb
    have he : require vm fs st name =
        reqExecute vm fs st (name ++ ".mrb") name st.filename := by
      simp only [require, h1, h2, hrb, hmrb]
      simp
    exact ⟨he, by rw [he, reqExecute_required]; exact List.mem_cons_self _ _⟩
  · intro hrb hmrb hbare
    have he : require vm fs st name =
        reqExecute vm fs st name name st.filename := by
      simp only [require, h1, h2, hrb, hmrb, hbare]
      simp
    exact ⟨he, by rw [he, reqExecute_required]; exact List.mem_cons_self _ _⟩

theorem C3_witness :
    require vm0 [("y.rb", "s")] Mruby.init "y" =
      reqExecute vm0 [("y.rb", "s")] Mruby.init "y.rb" "y" none ∧
    "y" ∈ (require vm0 [("y.rb", "s")] Mruby.init "y").1.required :=
  (C3_require_candidate_order vm0 [("y.rb", "s")] Mruby.init "y" rfl rfl).1 rfl


/-- Claim C6: when a name has no registered loaders and none of the three
candidate files exists, `require` raises a script-level `RuntimeError` whose
message mentions both `name.rb` and `name.mrb`. -/
theorem C6_require_missing (vm : VM) (fs : FS) (st : Mruby) (name : String)
    (h1 : st.required.contains name = false)
    (h2 : lookupA st.files name = none)
    (h3 : isFile fs (name ++ ".rb") = false)
    (h4 : isFile fs (name ++ ".mrb") = false)
    (h5 : isFile fs name = false) :
    (require vm fs st name).1.exc =
      some ("RuntimeError", "cannot load " ++ name ++ ".rb or " ++ name ++ ".mrb") ∧
    ∃ a b c, "cannot load " ++ name ++ ".rb or " ++ name ++ ".mrb" =
      a ++ (name ++ ".rb") ++ b ++ (name ++ ".mrb") ++ c := by
  constructor
  · simp only [require, h1, h2, h3, h4, h5, raise]
    simp
  · refine ⟨"cannot load ", " or ", "", ?_⟩
    have h : (".rb" ++ " or " : String) = ".rb or " := rfl
    simp only [String.append_assoc, ← h]
    simp

theorem C6_witness :
    (require vm0 [] Mruby.init "missing").1.exc =
      some ("RuntimeError", "cannot load missing.rb or missing.mrb") ∧
    ∃ a b c, ("cannot load missing.rb or missing.mrb" : String) =
      a ++ ("missing" ++ ".rb") ++ b ++ ("missing" ++ ".mrb") ++ c :=
  C6_require_missing vm0 [] Mruby.init "missing" rfl rfl rfl rfl rfl

/-- Claim C7, counterexample: a path with an unrecognized extension whose
file cannot be opened yields an `Io` error, not the `Filetype` error the
claim promises for every other-extension path. -/
theorem C7_counterexample :
    (execute vm0 [] Mruby.init "a.txt").2.1 = .error (.Io ioErrNotFound) ∧
    MrubyError.Io ioErrNotFound ≠ MrubyError.Filetype := by
  constructor
  · rfl
  · decide

/-- Claim C7 as amended: `execute` dispatches on the path's extension: a
".rb" extension reads the file and runs its contents via the checked `run`;
".mrb" reads it and runs it via `runb`; any other extension yields a
`Filetype` error without running anything when the file can be opened, and an
`Io` error when it cannot; a path with no extension yields a `Filetype` error
without touching the file system. -/
theorem C7_execute_dispatch (vm : VM) (fs : FS) (st : Mruby) (path : String) :
    (∀ c, extension path = some "rb" → lookupA fs path = some c →
      execute vm fs st path =
        (setFilename st (fileName path), run vm c,
         [Event.openFile path, Event.readFile path])) ∧
    (∀ c, extension path = some "mrb" → lookupA fs path = some c →
      execute vm fs st path =
        (setFilename st (fileName path), runb vm c,
         [Event.openFile path, Event.readFile path])) ∧
    (∀ e c, extension path = some e → e ≠ "rb" → e ≠ "mrb" →
      lookupA fs path = some c →
      execute vm fs st path =
        (setFilename st (fileName path), .error .Filetype,
         [Event.openFile path])) ∧
    (∀ e, extension path = some e → lookupA fs path = none →
      execute vm fs st path =
        (setFilename st (fileName path), .error (.Io ioErrNotFound), [])) ∧
    (extension path = none →
      execute vm fs st path = (st, .error .Filetype, [])) := by
  refine ⟨?_, ?_, ?_, ?_, ?_⟩
  · intro c hext hl
    simp [execute, hext, hl]
  · intro c hext hl
    simp [execute, hext, hl]
  · intro e c hext hrb hmrb hl
    simp [execute, hext, hl, hrb, hmrb]
  · intro e hext hl
    simp [execute, hext, hl]
  · intro hext
    simp [execute, hext]

theorem C7_witness :
    execute vm0 [("s.rb", "c")] Mruby.init "s.rb" =
      (setFilename Mruby.init "s.rb", run vm0 "c",
       [Event.openFile "s.rb", Event.readFile "s.rb"]) ∧
    execute vm0 [] Mruby.init "noext" = (Mruby.init, .error .Filetype, []) :=
  ⟨by
    have h := (C7_execute_dispatch vm0 [("s.rb", "c")] Mruby.init "s.rb").1
      "c" (by decide) rfl
    simpa using h,
   (C7_execute_dispatch vm0 [] Mruby.init "noext").2.2.2.2 (by decide)⟩


/-- Claim C9, counterexample: with no current source name (`None`) before the
call, `require` of an existing `m.rb` restores the `filename` field to `None`
but leaves the compile context's filename at the loaded file's name
(`"m.rb"`), which differs from its value (`none`) before the call. -/
theorem C9_counterexample :
    (require vm0 [("m.rb", "s")] Mruby.init "m").1.filename = none ∧
    (require vm0 [("m.rb", "s")] Mruby.init "m").1.ctxFilename = some "m.rb" ∧
    some "m.rb" ≠ Mruby.init.ctxFilename := by
  refine ⟨rfl, rfl, by decide⟩

/-- Claim C9 as amended: around a load from a file, `require` saves the
current source name and always restores the `Mruby` `filename` field to its
prior value; the compile context's filename is restored only when the prior
source name was `Some` — when it was `None`, the context keeps the loaded
file's name. -/
theorem C9_require_filename_restore (vm : VM) (fs : FS) (st : Mruby)
    (name : String)
    (h1 : st.required.contains name = false)
    (h2 : lookupA st.files name = none)
    (h3 : isFile fs (name ++ ".rb") = true) :
    (require vm fs st name).1.filename = st.filename ∧
    (∀ f, st.filename = some f →
      (require vm fs st name).1.ctxFilename = some f) ∧
    (∀ e, st.filename = none → extension (name ++ ".rb") = some e →
      (require vm fs st name).1.ctxFilename =
        some (fileName (name ++ ".rb"))) := by
  have he : require vm fs st name =
      reqExecute vm fs st (name ++ ".rb") name st.filename := by
    simp only [require, h1, h2, h3]
    simp
  refine ⟨?_, ?_, ?_⟩
  · rw [he, reqExecute_filename]
  · intro f hf
    rw [he, hf, reqExecute_ctx_some]
  · intro e hf hext
    rw [he, hf, reqExecute_ctx_none vm fs st (name ++ ".rb") name e hext]

theorem C9_witness :
    (require vm0 [("w.rb", "s")] (setFilename Mruby.init "main.rb") "w").1.filename =
      (setFilename Mruby.init "main.rb").filename ∧
    (require vm0 [("w.rb", "s")] (setFilename Mruby.init "main.rb") "w").1.ctxFilename =
      some "main.rb" := by
  have h := C9_require_filename_restore vm0 [("w.rb", "s")]
    (setFilename Mruby.init "main.rb") "w" rfl rfl rfl
  exact ⟨h.1, h.2.1 "main.rb" rfl⟩

end Mrusty
